import Mathlib

/-!
Shallow embedding of the Five Towers rules engine
(`apps/training/five_towers/game_logic/`: `state.py`, `deck.py`, `rules.py`,
`scoring.py`, `phases/bidding.py`, `phases/building.py`, and the game-state
initialisation of `env.py`), together with theorems settling the spec claims.

Modelling conventions:
* Python `int` card values are modelled as `Nat` (the data model fixes them to
  0–15); bid amounts and the current high bid are modelled as `Int` (Python
  ints with no such range guarantee); scores are `Int` (they can go negative).
* `uuid4` card/player identities are modelled as distinct naturals.
* `random.shuffle` permutes a list uniformly at random; it is modelled as the
  identity permutation.  Every property verified below (lengths, membership,
  card counts) is invariant under the choice of permutation.
* Python list indexing raises `IndexError` when out of range; the embedding
  threads `Option` through bracket indexing and returns the operation's failure
  result in the (unreachable inside the engine) `none` case.
* Mutation is modelled by explicit state passing: each mutating operation maps
  the incoming `GameState` to the resulting one, paired with its `Bool`
  success result where the source returns one.
-/

/-- The 5 tower suits (`state.py`, `TowerSuit`). -/
inductive TowerSuit
  | sand
  | stone
  | vegetation
  | water
  | fire
deriving DecidableEq, Repr

/-- Game phases (`state.py`, `GamePhase`). -/
inductive GamePhase
  | lobby
  | bidding
  | building
  | scoring
  | game_over
deriving DecidableEq, Repr

/-- A single card (`state.py`, `Card`): stable identity, suit, value 0–15. -/
structure Card where
  id : Nat
  suit : TowerSuit
  value : Nat
deriving DecidableEq, Repr

/-- `Card.is_tower_top`: value 0 doubles tower points but caps the tower. -/
def Card.is_tower_top (c : Card) : Bool :=
  c.value = 0

/-- `Card.is_reset`: value 8 accepts any card on top. -/
def Card.is_reset (c : Card) : Bool :=
  c.value = 8

/-- `Card.is_wild`: value 9 can be placed on any card. -/
def Card.is_wild (c : Card) : Bool :=
  c.value = 9

/-- A player's tower for a single suit (`state.py`, `Tower`). -/
structure Tower where
  suit : TowerSuit
  cards : List Card
deriving DecidableEq, Repr

/-- `Tower.top_card`: the most recently placed card. -/
def Tower.top_card (t : Tower) : Option Card :=
  t.cards.getLast?

/-- `Tower.height`: number of cards in the tower. -/
def Tower.height (t : Tower) : Nat :=
  t.cards.length

/-- `Tower.is_capped`: the tower has a Tower Top card on top. -/
def Tower.is_capped (t : Tower) : Bool :=
  match t.top_card with
  | none => false
  | some top => top.is_tower_top

/-- `Tower.can_place`: empty accepts anything; Tower Top on top accepts
nothing; Reset on top accepts anything; a Wild goes anywhere else; otherwise
strictly descending values. -/
def Tower.can_place (t : Tower) (card : Card) : Bool :=
  match t.cards.getLast? with
  | none => true
  | some top =>
    if top.is_tower_top then false
    else if top.is_reset then true
    else if card.is_wild then true
    else decide (card.value < top.value)

/-- `Tower.add_card`.  The source raises `ValueError` when `can_place` fails;
inside the engine it is only reached under the `can_place_card` guard, so the
embedding appends unconditionally. -/
def Tower.add_card (t : Tower) (card : Card) : Tower :=
  { t with cards := t.cards ++ [card] }

/-- `Tower.tear_down`: remove all cards from the tower and return them. -/
def Tower.tear_down (t : Tower) : List Card × Tower :=
  (t.cards, { t with cards := [] })

/-- `Tower.calculate_score`: card count, doubled when topped by a Tower Top. -/
def Tower.calculate_score (t : Tower) : Nat :=
  match t.cards.getLast? with
  | none => 0
  | some top => if top.is_tower_top then t.cards.length * 2 else t.cards.length

/-- State for a single player (`state.py`, `PlayerState`).  `__post_init__`
creates one tower per suit, so `towers` is a total map from suits.  The `hand`
field and display `name` are never read or written by the game logic and are
omitted. -/
structure PlayerState where
  id : Nat
  towers : TowerSuit → Tower
  tear_down_pile : List Card
  current_bid : Option Int
  has_passed : Bool

/-- `PlayerState.calculate_penalty`: triangular number of the pile size. -/
def PlayerState.calculate_penalty (p : PlayerState) : Nat :=
  let k := p.tear_down_pile.length
  k * (k + 1) / 2

/-- `PlayerState.get_tower`. -/
def PlayerState.get_tower (p : PlayerState) (suit : TowerSuit) : Tower :=
  p.towers suit

/-- Complete game state (`state.py`, `GameState`). -/
structure GameState where
  phase : GamePhase
  round_number : Nat
  deck : List Card
  display_cards : List Card
  discard_pile : List Card
  players : List PlayerState
  current_player_index : Nat
  current_high_bid : Int
  high_bidder_index : Option Nat
  auction_winner_index : Option Nat
  cards_to_process : List Card

/-- `GameState.active_bidders`: players who have not passed this auction. -/
def GameState.active_bidders (s : GameState) : List PlayerState :=
  s.players.filter (fun p => !p.has_passed)

/-- `GameState.advance_turn`: next player in rotation. -/
def GameState.advance_turn (s : GameState) : GameState :=
  { s with current_player_index := (s.current_player_index + 1) % s.players.length }

/-- `GameState.get_player_index`: index of the player with the given id (the
source raises when absent; `List.findIdx` then returns the list length). -/
def GameState.get_player_index (s : GameState) (pid : Nat) : Nat :=
  s.players.findIdx (fun p => p.id = pid)

/-- `GameState.is_valid_bid`: strictly above the current high bid, at most 5. -/
def GameState.is_valid_bid (s : GameState) (amount : Int) : Bool :=
  if amount ≤ s.current_high_bid then false
  else if 5 < amount then false
  else true

/-- The five suits in declaration order, as Python's `for suit in TowerSuit`
iterates them. -/
def suits_list : List TowerSuit :=
  [TowerSuit.sand, TowerSuit.stone, TowerSuit.vegetation, TowerSuit.water, TowerSuit.fire]

/-- Position of a suit in the declaration order (used to mint distinct card
identities in the deck builder). -/
def suit_index : TowerSuit → Nat
  | TowerSuit.sand => 0
  | TowerSuit.stone => 1
  | TowerSuit.vegetation => 2
  | TowerSuit.water => 3
  | TowerSuit.fire => 4

/-- Base set of `create_standard_deck` (`deck.py`): one card of each value
0–15 per suit, 80 cards.  Identities are minted positionally. -/
def base_deck : List Card :=
  suits_list.flatMap (fun st => (List.range 16).map (fun v => ⟨16 * suit_index st + v, st, v⟩))

/-- Expansion bundle of `create_standard_deck` for 4–5 players: an extra
Tower Top (value 0) and Reset (value 8) per suit, plus extra mid-range values
5, 6, 7 and 10 per suit, 30 cards. -/
def expansion_deck : List Card :=
  suits_list.map (fun st => ⟨80 + suit_index st, st, 0⟩)
    ++ suits_list.map (fun st => ⟨85 + suit_index st, st, 8⟩)
    ++ suits_list.flatMap (fun st =>
      [⟨90 + 4 * suit_index st, st, 5⟩, ⟨91 + 4 * suit_index st, st, 6⟩,
       ⟨92 + 4 * suit_index st, st, 7⟩, ⟨93 + 4 * suit_index st, st, 10⟩])

/-- `create_standard_deck` (`deck.py`): base set, plus the expansion bundle
for 4 or more players.  The final `random.shuffle` is modelled as the identity
permutation. -/
def create_standard_deck (num_players : Nat) : List Card :=
  if 4 ≤ num_players then base_deck ++ expansion_deck else base_deck

/-- `deal_display_cards` (`deck.py`): pop up to `count` cards off the deck
tail into the display row (overwriting it), returning the dealt cards. -/
def deal_display_cards (s : GameState) (count : Nat) : List Card × GameState :=
  let dealt := s.deck.reverse.take count
  let rest := (s.deck.reverse.drop count).reverse
  (dealt, { s with deck := rest, display_cards := dealt })

/-- `refill_deck_from_discard` (`deck.py`): shuffle the discard pile back into
the deck; fails when the discard pile is empty.  The shuffle is modelled as
the identity permutation. -/
def refill_deck_from_discard (s : GameState) : Bool × GameState :=
  if s.discard_pile.isEmpty then (false, s)
  else (true, { s with deck := s.discard_pile, discard_pile := [] })

/-- `calculate_tower_score` (`scoring.py`): card count, doubled when the top
card is a Tower Top. -/
def calculate_tower_score (tower_cards : List Card) : Nat :=
  match tower_cards.getLast? with
  | none => 0
  | some top => if top.value = 0 then tower_cards.length * 2 else tower_cards.length

/-- `calculate_tower_bonus` (`scoring.py`): the maximum tower height (0 when
all towers are empty). -/
def calculate_tower_bonus (towers : TowerSuit → List Card) : Nat :=
  (suits_list.map (fun st => (towers st).length)).foldr max 0

/-- `calculate_tear_down_penalty` (`scoring.py`): triangular number of the
tear-down count, 0 for non-positive counts. -/
def calculate_tear_down_penalty (tear_down_count : Int) : Int :=
  if tear_down_count ≤ 0 then 0
  else tear_down_count * (tear_down_count + 1) / 2

/-- `calculate_player_score` (`scoring.py`): tower scores plus tallest-tower
bonus minus the tear-down penalty. -/
def calculate_player_score (player : PlayerState) : Int :=
  let tower_scores : Nat :=
    (suits_list.map (fun st => calculate_tower_score (player.towers st).cards)).sum
  let bonus : Nat := calculate_tower_bonus (fun st => (player.towers st).cards)
  let penalty : Int := calculate_tear_down_penalty player.tear_down_pile.length
  (tower_scores : Int) + (bonus : Int) - penalty

/-- `can_bid` (`rules.py`): bidding phase, player's turn, not passed, strictly
above the current high bid, at most 5. -/
def can_bid (s : GameState) (player_index : Nat) (amount : Int) : Bool :=
  if s.phase ≠ GamePhase.bidding then false
  else if s.current_player_index ≠ player_index then false
  else
    match s.players[player_index]? with
    | none => false
    | some player =>
      if player.has_passed then false
      else if amount ≤ s.current_high_bid then false
      else if 5 < amount then false
      else true

/-- `can_pass` (`rules.py`): bidding phase, player's turn, not passed. -/
def can_pass (s : GameState) (player_index : Nat) : Bool :=
  if s.phase ≠ GamePhase.bidding then false
  else if s.current_player_index ≠ player_index then false
  else
    match s.players[player_index]? with
    | none => false
    | some player => !player.has_passed

/-- `can_place_card` (`rules.py`): building phase, player is the auction
winner, card among `cards_to_process`, and the target tower accepts it. -/
def can_place_card (s : GameState) (player_index : Nat) (card : Card)
    (tower_suit : TowerSuit) : Bool :=
  if s.phase ≠ GamePhase.building then false
  else if s.auction_winner_index ≠ some player_index then false
  else if card ∉ s.cards_to_process then false
  else
    match s.players[player_index]? with
    | none => false
    | some player => (player.get_tower tower_suit).can_place card

/-- `can_tear_down` (`rules.py`): building phase, player is the auction
winner, target tower non-empty. -/
def can_tear_down (s : GameState) (player_index : Nat) (tower_suit : TowerSuit) : Bool :=
  if s.phase ≠ GamePhase.building then false
  else if s.auction_winner_index ≠ some player_index then false
  else
    match s.players[player_index]? with
    | none => false
    | some player => decide (0 < (player.get_tower tower_suit).height)

/-- `is_bid_winning_bid` (`rules.py`): a bid of 5 wins immediately. -/
def is_bid_winning_bid (_s : GameState) (amount : Int) : Bool :=
  amount = 5

/-- Loop body of `advance_bidding_turn` (`phases/bidding.py`).  The Python
loop mutates only `current_player_index`, so it is embedded as a pure index
computation: advance modulo `n`, stop at the first non-passed player, or when
back at the original index, or after `players`-many steps. -/
def advance_index_go (players : List PlayerState) (n orig : Nat) :
    Nat → Nat → Nat
  | 0, cur => cur
  | fuel + 1, cur =>
    let cur' := (cur + 1) % n
    if ((players[cur']?).map (fun p => p.has_passed)).getD true = false then cur'
    else if cur' = orig then cur'
    else advance_index_go players n orig fuel cur'

/-- `advance_bidding_turn` (`phases/bidding.py`): advance to the next player
in bidding rotation, skipping players who have passed. -/
def advance_bidding_turn (s : GameState) : GameState :=
  { s with current_player_index :=
      (advance_index_go s.players s.players.length s.current_player_index
        s.players.length s.current_player_index) }

/-- `discard_display_cards` (`phases/bidding.py`): move the whole display row
to the discard pile. -/
def discard_display_cards (s : GameState) : GameState :=
  { s with discard_pile := s.discard_pile ++ s.display_cards, display_cards := [] }

/-- `start_new_round` (`phases/bidding.py`): reset all bids, passed flags and
auction pointers, deal a fresh display row; game over when nothing could be
dealt, otherwise a new bidding round. -/
def start_new_round (s : GameState) : GameState :=
  let s1 := { s with
    players := s.players.map (fun p => { p with current_bid := none, has_passed := false }),
    current_high_bid := 0,
    high_bidder_index := none,
    auction_winner_index := none }
  let r := deal_display_cards s1 5
  if r.1.isEmpty then { r.2 with phase := GamePhase.game_over }
  else { r.2 with phase := GamePhase.bidding, round_number := r.2.round_number + 1 }

/-- `end_auction` (`phases/bidding.py`): resolve the winner (explicit, else
the high bidder, else the sole active bidder, else discard the display row
and return); record the winner; a winning bid of 0 discards the display row
and starts a new round, otherwise the first `bid` display cards become
`cards_to_process` and the rest are discarded; finally (in both branches) the
phase is set to building and the turn pointer to the winner. -/
def end_auction (s : GameState) (winner_index : Option Nat) : GameState :=
  let resolved : Option Nat :=
    match winner_index with
    | some w => some w
    | none =>
      match s.high_bidder_index with
      | some h => some h
      | none =>
        match s.active_bidders with
        | [a] => some (s.get_player_index a.id)
        | _ => none
  match resolved with
  | none => discard_display_cards s
  | some w =>
    let s1 := { s with auction_winner_index := some w }
    let bid_amount : Int := (s1.players[w]?.bind (fun p => p.current_bid)).getD 0
    let s2 :=
      if bid_amount = 0 then
        start_new_round (discard_display_cards s1)
      else
        { s1 with
          cards_to_process := s1.display_cards.take bid_amount.toNat,
          discard_pile := s1.discard_pile ++ s1.display_cards.drop bid_amount.toNat,
          display_cards := [] }
    { s2 with phase := GamePhase.building, current_player_index := w }

/-- `submit_bid` (`phases/bidding.py`): reject unless `can_bid`; record the
bid and high bidder; a winning bid (5) ends the auction at once, otherwise
the turn advances. -/
def submit_bid (s : GameState) (player_index : Nat) (amount : Int) : Bool × GameState :=
  if ¬ can_bid s player_index amount then (false, s)
  else
    match s.players[player_index]? with
    | none => (false, s)
    | some player =>
      let s1 := { s with
        players := s.players.set player_index { player with current_bid := some amount },
        current_high_bid := amount,
        high_bidder_index := some player_index }
      if is_bid_winning_bid s1 amount then (true, end_auction s1 (some player_index))
      else (true, advance_bidding_turn s1)

/-- `submit_pass` (`phases/bidding.py`): reject unless `can_pass`; mark the
player passed; when exactly one active bidder remains they win at once,
otherwise the turn advances. -/
def submit_pass (s : GameState) (player_index : Nat) : Bool × GameState :=
  if ¬ can_pass s player_index then (false, s)
  else
    match s.players[player_index]? with
    | none => (false, s)
    | some player =>
      let s1 := { s with
        players := s.players.set player_index { player with has_passed := true } }
      if s1.active_bidders.length = 1 then
        match s1.active_bidders with
        | [w] => (true, end_auction s1 (some (s1.get_player_index w.id)))
        | _ => (true, advance_bidding_turn s1)
      else (true, advance_bidding_turn s1)

/-- `end_building_phase` (`phases/building.py`): when the deck is empty try to
refill it from the discard pile, going to game over when that fails too;
otherwise start a new round. -/
def end_building_phase (s : GameState) : GameState :=
  if s.deck.length = 0 then
    let r := refill_deck_from_discard s
    if r.1 = false then { r.2 with phase := GamePhase.game_over }
    else start_new_round r.2
  else start_new_round s

/-- `place_card` (`phases/building.py`): reject unless `can_place_card`; add
the card to the tower, remove it from `cards_to_process`, and end the
building phase when that empties `cards_to_process`. -/
def place_card (s : GameState) (player_index : Nat) (card : Card)
    (tower_suit : TowerSuit) : Bool × GameState :=
  if ¬ can_place_card s player_index card tower_suit then (false, s)
  else
    match s.players[player_index]? with
    | none => (false, s)
    | some player =>
      let t := player.get_tower tower_suit
      let player' := { player with
        towers := fun st => if st = tower_suit then t.add_card card else player.towers st }
      let s1 := { s with
        players := s.players.set player_index player',
        cards_to_process := s.cards_to_process.erase card }
      if s1.cards_to_process.isEmpty then (true, end_building_phase s1)
      else (true, s1)

/-- `tear_down_tower` (`phases/building.py`): reject unless `can_tear_down`;
move all of the tower's cards into the player's tear-down pile. -/
def tear_down_tower (s : GameState) (player_index : Nat)
    (tower_suit : TowerSuit) : Bool × GameState :=
  if ¬ can_tear_down s player_index tower_suit then (false, s)
  else
    match s.players[player_index]? with
    | none => (false, s)
    | some player =>
      let r := (player.get_tower tower_suit).tear_down
      let player' := { player with
        towers := fun st => if st = tower_suit then r.2 else player.towers st,
        tear_down_pile := player.tear_down_pile ++ r.1 }
      (true, { s with players := s.players.set player_index player' })

/-- A fresh player as built by `env.reset`: empty towers for every suit, no
bid, not passed. -/
def initial_player (i : Nat) : PlayerState :=
  { id := i,
    towers := fun st => { suit := st, cards := [] },
    tear_down_pile := [],
    current_bid := none,
    has_passed := false }

/-- The game state produced by `env.reset` (`env.py`): fresh deck for the
player count, players 0..n-1, an initial display row of 5, phase bidding,
player 0 to act, round 1. -/
def initial_state (num_players : Nat) : GameState :=
  let s0 : GameState := {
    phase := GamePhase.lobby,
    round_number := 0,
    deck := create_standard_deck num_players,
    display_cards := [],
    discard_pile := [],
    players := (List.range num_players).map initial_player,
    current_player_index := 0,
    current_high_bid := 0,
    high_bidder_index := none,
    auction_winner_index := none,
    cards_to_process := [] }
  let r := deal_display_cards s0 5
  { r.2 with phase := GamePhase.bidding, current_player_index := 0, round_number := 1 }

/-- Number of cards a player holds: all five towers plus the tear-down pile
(spec §8 conservation property). -/
def player_card_count (p : PlayerState) : Nat :=
  (suits_list.map (fun st => (p.towers st).cards.length)).sum + p.tear_down_pile.length

/-- Total number of cards in a game state: deck, discard pile, display row,
every player's towers and tear-down pile, and `cards_to_process`
(spec §8 conservation property). -/
def total_cards (s : GameState) : Nat :=
  s.deck.length + s.discard_pile.length + s.display_cards.length
    + (s.players.map player_card_count).sum + s.cards_to_process.length

/-- The tower of player `q` for suit `st` in state `s` (an empty tower when
the player index is out of range). -/
def state_tower (s : GameState) (q : Nat) (st : TowerSuit) : Tower :=
  (s.players[q]?.map (fun p => p.towers st)).getD { suit := st, cards := [] }

/-- A small mid-auction state used to instantiate theorems: two fresh
players, player 0 to act, nothing bid yet. -/
def bid_state : GameState :=
  { phase := GamePhase.bidding,
    round_number := 1,
    deck := [⟨20, TowerSuit.stone, 7⟩, ⟨21, TowerSuit.stone, 3⟩],
    display_cards := [⟨30, TowerSuit.water, 6⟩, ⟨31, TowerSuit.fire, 2⟩],
    discard_pile := [],
    players := [initial_player 0, initial_player 1],
    current_player_index := 0,
    current_high_bid := 0,
    high_bidder_index := none,
    auction_winner_index := none,
    cards_to_process := [] }

/-- A player whose sand tower is capped by a Tower Top, used to instantiate
theorems. -/
def capped_player : PlayerState :=
  { initial_player 0 with
    towers := fun st =>
      if st = TowerSuit.sand
      then { suit := st, cards := [⟨7, TowerSuit.sand, 5⟩, ⟨8, TowerSuit.sand, 0⟩] }
      else { suit := st, cards := [] } }

/-- A small building-phase state used to instantiate theorems: player 0 won
the auction and holds one card; their sand tower is capped by a Tower Top. -/
def capped_state : GameState :=
  { phase := GamePhase.building,
    round_number := 1,
    deck := [⟨100, TowerSuit.fire, 3⟩],
    display_cards := [],
    discard_pile := [],
    players := [capped_player],
    current_player_index := 0,
    current_high_bid := 0,
    high_bidder_index := none,
    auction_winner_index := some 0,
    cards_to_process := [⟨9, TowerSuit.sand, 4⟩] }

example : Tower.can_place ⟨TowerSuit.sand, [⟨0, TowerSuit.sand, 10⟩]⟩ ⟨1, TowerSuit.sand, 5⟩ = true := by decide
example : Tower.can_place ⟨TowerSuit.sand, [⟨0, TowerSuit.sand, 10⟩]⟩ ⟨1, TowerSuit.sand, 12⟩ = false := by decide
example : Tower.can_place ⟨TowerSuit.sand, [⟨0, TowerSuit.sand, 5⟩, ⟨1, TowerSuit.sand, 0⟩]⟩ ⟨2, TowerSuit.sand, 9⟩ = false := by decide
example : Tower.can_place ⟨TowerSuit.sand, [⟨0, TowerSuit.sand, 8⟩]⟩ ⟨1, TowerSuit.sand, 15⟩ = true := by decide

/-- Inversion for `can_bid`: exactly the five conditions of §4.2. -/
theorem can_bid_eq_true_iff (s : GameState) (p : Nat) (a : Int) :
    can_bid s p a = true ↔
      s.phase = GamePhase.bidding ∧ s.current_player_index = p ∧
        ∃ pl, s.players[p]? = some pl ∧ pl.has_passed = false ∧
          s.current_high_bid < a ∧ a ≤ 5 := by
  unfold can_bid
  split
  · next h1 => simp only [Bool.false_eq_true, false_iff]; intro h; exact h1 h.1
  · next h1 =>
    rw [not_not] at h1
    split
    · next h2 => simp only [Bool.false_eq_true, false_iff]; intro h; exact h2 h.2.1
    · next h2 =>
      rw [not_not] at h2
      split
      · next hpl =>
        simp [h1, h2, hpl]
      · next pl hpl =>
        simp only [h1, h2, hpl, true_and, Option.some.injEq]
        cases hp : pl.has_passed <;>
          by_cases h3 : a ≤ s.current_high_bid <;>
          by_cases h4 : 5 < a <;>
          simp [hp, h3, h4] <;>
          omega

/-- C10: a bid of 0 is never legal — `can_bid` requires the amount to
strictly exceed the current high bid, which is never negative — so
`submit_bid` with amount 0 fails and leaves the state unchanged, and every
successful bid amount is strictly positive (hence a winner's recorded
`current_bid` is never the integer 0: the zero-winning-bid branch of
`end_auction` is reachable only with the bid unset). -/
theorem zero_bid_never_legal (s : GameState) (p : Nat)
    (h : 0 ≤ s.current_high_bid) :
    can_bid s p 0 = false ∧ submit_bid s p 0 = (false, s) ∧
      ∀ a : Int, can_bid s p a = true → 0 < a := by
  have h0 : can_bid s p 0 = false := by
    cases hcb : can_bid s p 0
    · rfl
    · exfalso
      rcases (can_bid_eq_true_iff s p 0).mp hcb with ⟨-, -, -, -, -, hlt, -⟩
      omega
  refine ⟨h0, by simp [submit_bid, h0], ?_⟩
  intro a hcb
  rcases (can_bid_eq_true_iff s p a).mp hcb with ⟨-, -, -, -, -, hlt, -⟩
  omega

/-- Witness for `zero_bid_never_legal` at a concrete mid-auction state. -/
theorem zero_bid_never_legal_witness :
    can_bid bid_state 0 0 = false ∧ submit_bid bid_state 0 0 = (false, bid_state) ∧
      ∀ a : Int, can_bid bid_state 0 a = true → 0 < a :=
  zero_bid_never_legal bid_state 0 (by decide)

/-- C5: when the §4.2 precondition of an action fails, the corresponding
mutating operation returns a failure result and leaves the state unchanged. -/
theorem illegal_action_is_noop (s : GameState) (p : Nat) (a : Int) (c : Card)
    (st : TowerSuit) :
    (can_bid s p a = false → submit_bid s p a = (false, s)) ∧
    (can_pass s p = false → submit_pass s p = (false, s)) ∧
    (can_place_card s p c st = false → place_card s p c st = (false, s)) ∧
    (can_tear_down s p st = false → tear_down_tower s p st = (false, s)) := by
  refine ⟨fun h => ?_, fun h => ?_, fun h => ?_, fun h => ?_⟩
  · simp [submit_bid, h]
  · simp [submit_pass, h]
  · simp [place_card, h]
  · simp [tear_down_tower, h]

/-- Witness for `illegal_action_is_noop`: player 1 acting out of turn / out
of phase at a concrete mid-auction state. -/
theorem illegal_action_is_noop_witness :
    can_bid bid_state 1 1 = false ∧ submit_bid bid_state 1 1 = (false, bid_state) ∧
    can_pass bid_state 1 = false ∧ submit_pass bid_state 1 = (false, bid_state) ∧
    can_place_card bid_state 1 ⟨30, TowerSuit.water, 6⟩ TowerSuit.sand = false ∧
      place_card bid_state 1 ⟨30, TowerSuit.water, 6⟩ TowerSuit.sand = (false, bid_state) ∧
    can_tear_down bid_state 1 TowerSuit.sand = false ∧
      tear_down_tower bid_state 1 TowerSuit.sand = (false, bid_state) := by
  have h := illegal_action_is_noop bid_state 1 1 ⟨30, TowerSuit.water, 6⟩ TowerSuit.sand
  exact ⟨by decide, h.1 (by decide), by decide, h.2.1 (by decide),
    by decide, h.2.2.1 (by decide), by decide, h.2.2.2 (by decide)⟩

/-- The tear-down penalty of a natural count, cast to the integers, is the
natural triangular number. -/
theorem calculate_tear_down_penalty_natCast (k : Nat) :
    calculate_tear_down_penalty (k : Int) = ((k * (k + 1) / 2 : Nat) : Int) := by
  unfold calculate_tear_down_penalty
  rcases Nat.eq_zero_or_pos k with h0 | h0
  · subst h0; norm_num
  · rw [if_neg (by omega)]
    push_cast
    ring_nf

/-- C7: the tear-down penalty is the triangular number k(k+1)/2 in exact
integer arithmetic (both in the scoring engine and in
`PlayerState.calculate_penalty`), with the spec's sample values, and the
player score is the tower-score sum plus the tallest-tower bonus minus this
penalty. -/
theorem penalty_triangular_and_score_formula :
    (∀ k : Int, 0 ≤ k → calculate_tear_down_penalty k = k * (k + 1) / 2) ∧
    calculate_tear_down_penalty 0 = 0 ∧ calculate_tear_down_penalty 1 = 1 ∧
    calculate_tear_down_penalty 2 = 3 ∧ calculate_tear_down_penalty 3 = 6 ∧
    calculate_tear_down_penalty 5 = 15 ∧
    (∀ p : PlayerState, p.calculate_penalty
        = p.tear_down_pile.length * (p.tear_down_pile.length + 1) / 2) ∧
    (∀ p : PlayerState, calculate_player_score p =
      ((suits_list.map (fun st => calculate_tower_score (p.towers st).cards)).sum : Int)
        + (calculate_tower_bonus (fun st => (p.towers st).cards) : Int)
        - ((p.tear_down_pile.length * (p.tear_down_pile.length + 1) / 2 : Nat) : Int)) := by
  refine ⟨?_, by decide, by decide, by decide, by decide, by decide, fun p => rfl, ?_⟩
  · intro k hk
    unfold calculate_tear_down_penalty
    by_cases hk0 : k ≤ 0
    · have : k = 0 := le_antisymm hk0 hk
      subst this
      norm_num
    · rw [if_neg hk0]
  · intro p
    unfold calculate_player_score
    rw [calculate_tear_down_penalty_natCast]

/-- Witness for `penalty_triangular_and_score_formula` at k = 5 and a
concrete player. -/
theorem penalty_triangular_witness :
    calculate_tear_down_penalty 5 = 5 * (5 + 1) / 2 ∧
      calculate_player_score (initial_player 0) =
        ((suits_list.map
            (fun st => calculate_tower_score ((initial_player 0).towers st).cards)).sum : Int)
          + (calculate_tower_bonus (fun st => ((initial_player 0).towers st).cards) : Int)
          - (((initial_player 0).tear_down_pile.length
              * ((initial_player 0).tear_down_pile.length + 1) / 2 : Nat) : Int) :=
  ⟨penalty_triangular_and_score_formula.1 5 (by decide),
    penalty_triangular_and_score_formula.2.2.2.2.2.2.2 (initial_player 0)⟩

/-- C8: deck sizes for each supported player count, and every deck contains,
for each of the 5 suits, a card of every value 0 through 15. -/
theorem deck_sizes_and_composition :
    (create_standard_deck 2).length = 80 ∧ (create_standard_deck 3).length = 80 ∧
    (create_standard_deck 4).length = 110 ∧ (create_standard_deck 5).length = 110 ∧
    (∀ num_players : Nat, 2 ≤ num_players → num_players ≤ 5 →
      ∀ st : TowerSuit, ∀ v : Nat, v ≤ 15 →
        ∃ c ∈ create_standard_deck num_players, c.suit = st ∧ c.value = v) := by
  refine ⟨by decide, by decide, by decide, by decide, ?_⟩
  intro np _ _ st v hv
  refine ⟨⟨16 * suit_index st + v, st, v⟩, ?_, rfl, rfl⟩
  have hbase : (⟨16 * suit_index st + v, st, v⟩ : Card) ∈ base_deck := by
    unfold base_deck
    rw [List.mem_flatMap]
    refine ⟨st, by cases st <;> simp [suits_list], ?_⟩
    rw [List.mem_map]
    exact ⟨v, List.mem_range.mpr (by omega), rfl⟩
  unfold create_standard_deck
  split
  · exact List.mem_append_left _ hbase
  · exact hbase

/-- Witness for `deck_sizes_and_composition`: the 2-player deck contains a
fire card of value 15. -/
theorem deck_sizes_and_composition_witness :
    ∃ c ∈ create_standard_deck 2, c.suit = TowerSuit.fire ∧ c.value = 15 :=
  deck_sizes_and_composition.2.2.2.2 2 (by decide) (by decide) TowerSuit.fire 15 (by decide)

/-- C3: `can_place_card` holds exactly when the phase is building, the player
is the auction winner, the card is among `cards_to_process`, and the target
tower accepts the card — empty tower, or Reset (value 8) on top, or a Wild
(value 9) onto a non-capped tower, or strictly smaller value than the top
card; a capped tower (top value 0) accepts nothing. -/
theorem can_place_card_iff_spec (s : GameState) (p : Nat) (c : Card)
    (st : TowerSuit) (pl : PlayerState) (hpl : s.players[p]? = some pl) :
    can_place_card s p c st = true ↔
      s.phase = GamePhase.building ∧ s.auction_winner_index = some p ∧
        c ∈ s.cards_to_process ∧
        ((pl.towers st).cards = [] ∨
          ∃ top, (pl.towers st).top_card = some top ∧
            (top.value = 8 ∨ (c.value = 9 ∧ top.value ≠ 0) ∨ c.value < top.value)) := by
  unfold can_place_card
  split
  · next h1 => simp only [Bool.false_eq_true, false_iff]; intro h; exact h1 h.1
  · next h1 =>
    rw [not_not] at h1
    split
    · next h2 => simp only [Bool.false_eq_true, false_iff]; intro h; exact h2 h.2.1
    · next h2 =>
      rw [not_not] at h2
      split
      · next h3 => simp only [Bool.false_eq_true, false_iff]; intro h; exact h3 h.2.2.1
      · next h3 =>
        rw [not_not] at h3
        simp only [hpl, h1, h2, h3, true_and]
        unfold PlayerState.get_tower Tower.can_place Tower.top_card
        rcases hlast : (pl.towers st).cards.getLast? with _ | top
        · simp [List.getLast?_eq_none_iff.mp hlast]
        · have hne : (pl.towers st).cards ≠ [] := by
            intro hnil
            rw [hnil] at hlast
            simp at hlast
          simp only [hne, false_or, Option.some.injEq]
          unfold Card.is_tower_top Card.is_reset Card.is_wild
          by_cases t0 : top.value = 0 <;> by_cases t8 : top.value = 8 <;>
            by_cases c9 : c.value = 9 <;>
            simp [t0, t8, c9] <;>
            omega

/-- Witness for `can_place_card_iff_spec`: in the concrete building state the
held sand card may go on the empty fire tower. -/
theorem can_place_card_iff_spec_witness :
    can_place_card capped_state 0 ⟨9, TowerSuit.sand, 4⟩ TowerSuit.fire = true :=
  (can_place_card_iff_spec capped_state 0 ⟨9, TowerSuit.sand, 4⟩ TowerSuit.fire
      capped_player rfl).mpr
    ⟨rfl, rfl, by decide, Or.inl (by decide)⟩

/-- C6: whenever `can_bid` allows a bid of 5, `submit_bid` succeeds and ends
the auction immediately — whatever the other bidders' flags are — recording
the bidder as auction winner, switching the phase to building, and setting
the turn pointer to the bidder. -/
theorem bid_five_wins_immediately (s : GameState) (p : Nat)
    (h : can_bid s p 5 = true) :
    (submit_bid s p 5).1 = true ∧
    (submit_bid s p 5).2.phase = GamePhase.building ∧
    (submit_bid s p 5).2.auction_winner_index = some p ∧
    (submit_bid s p 5).2.current_player_index = p := by
  rcases (can_bid_eq_true_iff s p 5).mp h with ⟨-, -, pl, hpl, -, -, -⟩
  have hplen : p < s.players.length := by
    rcases Nat.lt_or_ge p s.players.length with hlt | hge
    · exact hlt
    · rw [List.getElem?_eq_none hge] at hpl
      cases hpl
  unfold submit_bid
  rw [if_neg (by simp [h])]
  simp only [hpl]
  rw [if_pos (by simp [is_bid_winning_bid])]
  unfold end_auction
  have hset : (s.players.set p { pl with current_bid := some (5 : Int) })[p]?
      = some { pl with current_bid := some (5 : Int) } :=
    List.getElem?_set_eq_of_lt _ (by simpa using hplen)
  simp only [hset, Option.bind_some, Option.getD_some]
  refine ⟨trivial, trivial, ?_, trivial⟩
  split
  · next hcond =>
      rw [show ((some { pl with current_bid := some (5 : Int) }).bind
          fun a : PlayerState => a.current_bid).getD 0 = (5 : Int) from rfl] at hcond
      exact absurd hcond (by decide)
  · rfl

/-- Witness for `bid_five_wins_immediately` at a concrete mid-auction state
with both players still active. -/
theorem bid_five_wins_immediately_witness :
    (submit_bid bid_state 0 5).1 = true ∧
    (submit_bid bid_state 0 5).2.phase = GamePhase.building ∧
    (submit_bid bid_state 0 5).2.auction_winner_index = some 0 ∧
    (submit_bid bid_state 0 5).2.current_player_index = 0 :=
  bid_five_wins_immediately bid_state 0 (by decide)

/-- C1 (code bug): resolving an auction whose recorded winner has no bid set
(the winning-bid-0 path) discards the display row and calls
`start_new_round` — which deals a fresh row, bumps the round counter and sets
the phase to bidding — but `end_auction` then falls through to overwrite the
phase with building (and the turn pointer with the winner), because the
winning-bid-0 branch does not return early.  From the freshly reset
2-player state, the result is phase building with `auction_winner_index`
already cleared to `none` and an incremented round counter. -/
theorem end_auction_zero_bid_ends_in_building_phase :
    (end_auction (initial_state 2) (some 0)).phase = GamePhase.building ∧
    (end_auction (initial_state 2) (some 0)).auction_winner_index = none ∧
    (end_auction (initial_state 2) (some 0)).round_number = 2 ∧
    (end_auction (initial_state 2) (some 0)).cards_to_process = [] :=
  ⟨rfl, rfl, rfl, rfl⟩

/-- C2 counterexample: invoking `end_auction` with no explicit winner on the
fresh 2-player state (no high bidder, two active bidders) moves the display
row to the discard pile but does NOT start a new round: the deck is not
dealt from, the round counter does not advance, and the phase stays
bidding with an empty display row. -/
theorem end_auction_no_winner_no_new_round_counterexample :
    (end_auction (initial_state 2) none).display_cards = [] ∧
    (end_auction (initial_state 2) none).deck = (initial_state 2).deck ∧
    (end_auction (initial_state 2) none).round_number = (initial_state 2).round_number ∧
    (end_auction (initial_state 2) none).phase = GamePhase.bidding ∧
    (end_auction (initial_state 2) none).discard_pile = (initial_state 2).display_cards :=
  ⟨rfl, rfl, rfl, rfl, rfl⟩

/-- C2 amended: with no explicit winner, no recorded high bidder and not
exactly one active bidder, `end_auction` only moves the display cards to the
discard pile and returns — every other component of the state (deck, phase,
round counter, players, auction pointers) is left unchanged and no new round
is started. -/
theorem end_auction_no_winner_discards_only (s : GameState)
    (h1 : s.high_bidder_index = none) (h2 : s.active_bidders.length ≠ 1) :
    end_auction s none =
      { s with discard_pile := s.discard_pile ++ s.display_cards,
               display_cards := [] } := by
  unfold end_auction
  simp only [h1]
  rcases hab : s.active_bidders with _ | ⟨a, _ | ⟨b, t⟩⟩
  · simp only [hab]
    simp [discard_display_cards, h1]
  · exact absurd (by rw [hab]; rfl) h2
  · simp only [hab]
    simp [discard_display_cards, h1]

/-- Witness for `end_auction_no_winner_discards_only` at the fresh 2-player
state. -/
theorem end_auction_no_winner_discards_only_witness :
    end_auction (initial_state 2) none =
      { initial_state 2 with
        discard_pile := (initial_state 2).discard_pile ++ (initial_state 2).display_cards,
        display_cards := [] } :=
  end_auction_no_winner_discards_only (initial_state 2) rfl (by decide)

/-- C9 counterexample: in a concrete building-phase state the sand tower is
capped, yet `tear_down_tower` succeeds on it, and afterwards `can_place` on
that tower returns true again — so a capped tower does NOT reject every card
at every later state of every operation sequence. -/
theorem capped_tower_teardown_counterexample :
    (state_tower capped_state 0 TowerSuit.sand).is_capped = true ∧
    (tear_down_tower capped_state 0 TowerSuit.sand).1 = true ∧
    (state_tower (tear_down_tower capped_state 0 TowerSuit.sand).2 0
        TowerSuit.sand).can_place ⟨9, TowerSuit.sand, 4⟩ = true := by
  decide

/-- Replacing the element at index `i` changes a mapped sum by exactly the
difference between the new and old images. -/
theorem sum_map_set_exchange {α : Type} (f : α → Nat) (l : List α) (i : Nat)
    (x a : α) (h : l[i]? = some a) :
    ((l.set i x).map f).sum + f a = (l.map f).sum + f x := by
  induction l generalizing i with
  | nil => simp at h
  | cons hd tl ih =>
    cases i with
    | zero =>
      simp only [List.getElem?_cons_zero, Option.some.injEq] at h
      subst h
      simp [List.set]
      omega
    | succ n =>
      simp only [List.getElem?_cons_succ] at h
      simp only [List.set, List.map_cons, List.sum_cons]
      have := ih n h
      omega

/-- Updating a suit-indexed family at one suit changes the suit sum by
exactly the difference between the new and old values. -/
theorem suits_sum_update (f : TowerSuit → Nat) (st0 : TowerSuit) (v : Nat) :
    (suits_list.map (fun st => if st = st0 then v else f st)).sum + f st0
      = (suits_list.map f).sum + v := by
  cases st0 <;> simp [suits_list] <;> omega

/-- `discard_display_cards` conserves the total card count. -/
theorem total_cards_discard_display (s : GameState) :
    total_cards (discard_display_cards s) = total_cards s := by
  simp [total_cards, discard_display_cards]
  omega

/-- `deal_display_cards` conserves the total card count whenever the display
row it overwrites is empty. -/
theorem total_cards_deal (s : GameState) (n : Nat) (h : s.display_cards = []) :
    total_cards (deal_display_cards s n).2 = total_cards s := by
  simp [total_cards, deal_display_cards, h]
  omega

/-- `refill_deck_from_discard` conserves the total card count whenever the
deck it overwrites is empty (the building controller only invokes it then). -/
theorem total_cards_refill (s : GameState) (h : s.deck = []) :
    total_cards (refill_deck_from_discard s).2 = total_cards s := by
  unfold refill_deck_from_discard
  split
  · rfl
  · simp [total_cards, h]

/-- `refill_deck_from_discard` does not touch the display row. -/
theorem refill_display_unchanged (s : GameState) :
    (refill_deck_from_discard s).2.display_cards = s.display_cards := by
  unfold refill_deck_from_discard
  split <;> rfl

/-- Resetting every player's bid and passed flag (plus the auction pointers)
conserves the total card count. -/
theorem total_cards_players_reset (s : GameState) :
    total_cards { s with
      players := s.players.map (fun p => { p with current_bid := none, has_passed := false }),
      current_high_bid := 0, high_bidder_index := none, auction_winner_index := none }
      = total_cards s := by
  have hreset : (player_card_count ∘
      fun p : PlayerState => { p with current_bid := none, has_passed := false })
      = player_card_count := funext fun p => rfl
  simp [total_cards, List.map_map, hreset]

/-- `start_new_round` conserves the total card count whenever the display row
is empty (it always is at the controllers' call sites: the row was either
just discarded or just emptied by `end_auction`). -/
theorem total_cards_start_new_round (s : GameState) (h : s.display_cards = []) :
    total_cards (start_new_round s) = total_cards s := by
  simp only [start_new_round]
  split
  · next =>
      rw [show ∀ x : GameState, total_cards { x with phase := GamePhase.game_over }
          = total_cards x from fun x => rfl]
      rw [total_cards_deal { s with
          players := s.players.map
            (fun p => { p with current_bid := none, has_passed := false }),
          current_high_bid := 0, high_bidder_index := none,
          auction_winner_index := none } 5 h]
      exact total_cards_players_reset s
  · next =>
      rw [show ∀ x : GameState, ∀ r : Nat,
          total_cards { x with phase := GamePhase.bidding, round_number := r }
          = total_cards x from fun x r => rfl]
      rw [total_cards_deal { s with
          players := s.players.map
            (fun p => { p with current_bid := none, has_passed := false }),
          current_high_bid := 0, high_bidder_index := none,
          auction_winner_index := none } 5 h]
      exact total_cards_players_reset s

/-- Resolving an auction for an explicit winner conserves the total card
count whenever `cards_to_process` (which the nonzero-bid branch overwrites)
is empty — as it always is during bidding. -/
theorem total_cards_end_auction_winner (s : GameState) (wi : Nat)
    (h : s.cards_to_process = []) :
    total_cards (end_auction s (some wi)) = total_cards s := by
  simp only [end_auction]
  rw [show ∀ x : GameState, ∀ i : Nat,
      total_cards { x with phase := GamePhase.building, current_player_index := i }
      = total_cards x from fun x i => rfl]
  split
  · next =>
      rw [total_cards_start_new_round _ rfl]
      rw [total_cards_discard_display { s with auction_winner_index := some wi }]
      rfl
  · next =>
      simp [total_cards, h]
      omega

/-- `end_auction` conserves the total card count whenever `cards_to_process`
is empty, for every winner argument (explicit, auto-detected, or none). -/
theorem total_cards_end_auction (s : GameState) (w : Option Nat)
    (h : s.cards_to_process = []) :
    total_cards (end_auction s w) = total_cards s := by
  rcases w with _ | wi
  · rcases hh : s.high_bidder_index with _ | hb
    · rcases hab : s.active_bidders with _ | ⟨a, _ | ⟨b, t⟩⟩
      · have he : end_auction s none = discard_display_cards s := by
          unfold end_auction
          simp only [hh, hab]
        rw [he]
        exact total_cards_discard_display s
      · have he : end_auction s none = end_auction s (some (s.get_player_index a.id)) := by
          conv_lhs => unfold end_auction
          conv_rhs => unfold end_auction
          simp only [hh, hab]
        rw [he]
        exact total_cards_end_auction_winner s _ h
      · have he : end_auction s none = discard_display_cards s := by
          unfold end_auction
          simp only [hh, hab]
        rw [he]
        exact total_cards_discard_display s
    · have he : end_auction s none = end_auction s (some hb) := by
        conv_lhs => unfold end_auction
        conv_rhs => unfold end_auction
        simp only [hh]
      rw [he]
      exact total_cards_end_auction_winner s hb h
  · exact total_cards_end_auction_winner s wi h

/-- Total card count is unchanged by `advance_bidding_turn`. -/
theorem total_cards_advance_bidding (s : GameState) :
    total_cards (advance_bidding_turn s) = total_cards s := rfl

/-- `submit_bid` conserves the total card count whenever `cards_to_process`
is empty. -/
theorem total_cards_submit_bid (s : GameState) (p : Nat) (a : Int)
    (h : s.cards_to_process = []) :
    total_cards (submit_bid s p a).2 = total_cards s := by
  unfold submit_bid
  split
  · rfl
  · next =>
      rcases hpl : s.players[p]? with _ | pl
      · rfl
      · simp only [hpl]
        have h1 : total_cards { s with
            players := s.players.set p { pl with current_bid := some a },
            current_high_bid := a, high_bidder_index := some p }
            = total_cards s := by
          simp only [total_cards]
          have hexch := sum_map_set_exchange player_card_count s.players p
            { pl with current_bid := some a } pl hpl
          have hx : player_card_count { pl with current_bid := some a }
              = player_card_count pl := rfl
          omega
        split
        · exact (total_cards_end_auction_winner { s with
            players := s.players.set p { pl with current_bid := some a },
            current_high_bid := a, high_bidder_index := some p } p h).trans h1
        · exact h1

/-- `submit_pass` conserves the total card count whenever `cards_to_process`
is empty. -/
theorem total_cards_submit_pass (s : GameState) (p : Nat)
    (h : s.cards_to_process = []) :
    total_cards (submit_pass s p).2 = total_cards s := by
  unfold submit_pass
  split
  · rfl
  · next =>
      rcases hpl : s.players[p]? with _ | pl
      · rfl
      · simp only [hpl]
        have h1 : total_cards { s with
            players := s.players.set p { pl with has_passed := true } }
            = total_cards s := by
          simp only [total_cards]
          have hexch := sum_map_set_exchange player_card_count s.players p
            { pl with has_passed := true } pl hpl
          have hx : player_card_count { pl with has_passed := true }
              = player_card_count pl := rfl
          omega
        split
        · split
          · exact (total_cards_end_auction { s with
              players := s.players.set p { pl with has_passed := true } } _ h).trans h1
          · exact h1
        · exact h1

/-- `end_building_phase` conserves the total card count whenever the display
row is empty. -/
theorem total_cards_end_building (s : GameState) (h : s.display_cards = []) :
    total_cards (end_building_phase s) = total_cards s := by
  unfold end_building_phase
  split
  · next hdeck =>
      have hdeck' : s.deck = [] := List.length_eq_zero.mp hdeck
      dsimp only
      split
      · next =>
          rw [show ∀ x : GameState, total_cards { x with phase := GamePhase.game_over }
              = total_cards x from fun x => rfl]
          exact total_cards_refill s hdeck'
      · next =>
          rw [total_cards_start_new_round (refill_deck_from_discard s).2
            (by rw [refill_display_unchanged]; exact h)]
          exact total_cards_refill s hdeck'
  · exact total_cards_start_new_round s h

/-- A successful `can_place_card` check implies the card is among
`cards_to_process`. -/
theorem can_place_card_eq_true_elim (s : GameState) (p : Nat) (c : Card)
    (st : TowerSuit) (h : can_place_card s p c st = true) :
    c ∈ s.cards_to_process := by
  unfold can_place_card at h
  split at h
  · cases h
  · split at h
    · cases h
    · split at h
      · cases h
      · next h3 => exact not_not.mp h3

/-- `place_card` conserves the total card count whenever the display row is
empty (as it is throughout the building phase). -/
theorem total_cards_place_card (s : GameState) (p : Nat) (c : Card)
    (st : TowerSuit) (h : s.display_cards = []) :
    total_cards (place_card s p c st).2 = total_cards s := by
  unfold place_card
  split
  · rfl
  · next hcan =>
      have hmem : c ∈ s.cards_to_process :=
        can_place_card_eq_true_elim s p c st (not_not.mp hcan)
      rcases hpl : s.players[p]? with _ | pl
      · rfl
      · simp only [hpl]
        have hlen := List.length_erase_add_one hmem
        have hpcc : player_card_count { pl with
            towers := fun st' => if st' = st
              then Tower.add_card (pl.get_tower st) c else pl.towers st' }
            = player_card_count pl + 1 := by
          unfold player_card_count
          dsimp only
          simp only [apply_ite (fun tw : Tower => tw.cards.length), Tower.add_card,
            PlayerState.get_tower, List.length_append, List.length_cons,
            List.length_nil, Nat.zero_add, Nat.add_zero]
          have hupd := suits_sum_update (fun s' => (pl.towers s').cards.length) st
            ((pl.towers st).cards.length + 1)
          omega
        have hexch := sum_map_set_exchange player_card_count s.players p
          { pl with towers := fun st' => (if st' = st then Tower.add_card (pl.get_tower st) c else pl.towers st') } pl hpl
        split
        · next hemp =>
            rw [total_cards_end_building { s with
              players := s.players.set p { pl with towers := fun st' => (if st' = st then Tower.add_card (pl.get_tower st) c else pl.towers st') },
              cards_to_process := s.cards_to_process.erase c } h]
            simp only [total_cards]
            omega
        · next =>
            simp only [total_cards]
            omega

/-- `tear_down_tower` conserves the total card count unconditionally: the
torn-down tower's cards all move to the owner's tear-down pile. -/
theorem total_cards_tear_down (s : GameState) (p : Nat) (st : TowerSuit) :
    total_cards (tear_down_tower s p st).2 = total_cards s := by
  unfold tear_down_tower
  split
  · rfl
  · next =>
      rcases hpl : s.players[p]? with _ | pl
      · rfl
      · simp only [hpl]
        dsimp only [Tower.tear_down]
        have hpcc : player_card_count { pl with
            towers := fun st' => (if st' = st then { suit := (pl.get_tower st).suit, cards := ([] : List Card) } else pl.towers st'),
            tear_down_pile := pl.tear_down_pile ++ (pl.get_tower st).cards }
            = player_card_count pl := by
          unfold player_card_count
          dsimp only
          simp only [apply_ite (fun tw : Tower => tw.cards.length),
            PlayerState.get_tower, List.length_append, List.length_nil,
            Nat.zero_add, Nat.add_zero]
          have hupd := suits_sum_update (fun s' => (pl.towers s').cards.length) st 0
          omega
        have hexch := sum_map_set_exchange player_card_count s.players p
          { pl with
            towers := fun st' => (if st' = st then { suit := (pl.get_tower st).suit, cards := ([] : List Card) } else pl.towers st'),
            tear_down_pile := pl.tear_down_pile ++ (pl.get_tower st).cards } pl hpl
        simp only [total_cards]
        omega

/-- C4 counterexample: from the reachable initial 2-player state (which has a
nonempty display row), calling `deal_display_cards` again overwrites the
display row and loses its 5 cards: the total card count drops from 80 to
75 — so the total is NOT invariant under `deal` from every reachable state. -/
theorem conservation_deal_counterexample :
    total_cards (initial_state 2) = 80 ∧
    total_cards (deal_display_cards (initial_state 2) 5).2 = 75 :=
  ⟨rfl, rfl⟩

/-- C4 amended: the total card count is conserved by `tear_down_tower`
unconditionally; by `submit_bid`, `submit_pass` and `end_auction` whenever
`cards_to_process` is empty (as it is throughout bidding); by
`start_new_round`, `deal_display_cards` and `place_card` whenever the display
row is empty (as it is whenever the controllers deal or build); and by
`refill_deck_from_discard` whenever the deck is empty (the only situation in
which the building controller invokes it).  `deal` and `recycle` overwrite
the display row resp. the deck, so without these preconditions they lose
the overwritten cards. -/
theorem conservation_of_cards (s : GameState) (p : Nat) (a : Int) (c : Card)
    (st : TowerSuit) (w : Option Nat) (n : Nat) :
    (s.cards_to_process = [] →
      total_cards (submit_bid s p a).2 = total_cards s ∧
      total_cards (submit_pass s p).2 = total_cards s ∧
      total_cards (end_auction s w) = total_cards s) ∧
    (s.display_cards = [] →
      total_cards (start_new_round s) = total_cards s ∧
      total_cards (deal_display_cards s n).2 = total_cards s ∧
      total_cards (place_card s p c st).2 = total_cards s) ∧
    (s.deck = [] →
      total_cards (refill_deck_from_discard s).2 = total_cards s) ∧
    total_cards (tear_down_tower s p st).2 = total_cards s :=
  ⟨fun h => ⟨total_cards_submit_bid s p a h, total_cards_submit_pass s p h,
      total_cards_end_auction s w h⟩,
    fun h => ⟨total_cards_start_new_round s h, total_cards_deal s n h,
      total_cards_place_card s p c st h⟩,
    fun h => total_cards_refill s h,
    total_cards_tear_down s p st⟩

/-- Witness for `conservation_of_cards` at a concrete state with empty
display row, empty deck and empty `cards_to_process`. -/
theorem conservation_of_cards_witness :
    total_cards (submit_bid { bid_state with deck := [], display_cards := [] } 0 3).2
        = total_cards { bid_state with deck := [], display_cards := [] } ∧
    total_cards (submit_pass { bid_state with deck := [], display_cards := [] } 0).2
        = total_cards { bid_state with deck := [], display_cards := [] } ∧
    total_cards (end_auction { bid_state with deck := [], display_cards := [] } (some 0))
        = total_cards { bid_state with deck := [], display_cards := [] } ∧
    total_cards (start_new_round { bid_state with deck := [], display_cards := [] })
        = total_cards { bid_state with deck := [], display_cards := [] } ∧
    total_cards (deal_display_cards { bid_state with deck := [], display_cards := [] } 5).2
        = total_cards { bid_state with deck := [], display_cards := [] } ∧
    total_cards (place_card { bid_state with deck := [], display_cards := [] } 0
        ⟨30, TowerSuit.water, 6⟩ TowerSuit.sand).2
        = total_cards { bid_state with deck := [], display_cards := [] } ∧
    total_cards (refill_deck_from_discard { bid_state with deck := [], display_cards := [] }).2
        = total_cards { bid_state with deck := [], display_cards := [] } ∧
    total_cards (tear_down_tower { bid_state with deck := [], display_cards := [] } 0
        TowerSuit.sand).2
        = total_cards { bid_state with deck := [], display_cards := [] } := by
  have h := conservation_of_cards { bid_state with deck := [], display_cards := [] }
    0 3 ⟨30, TowerSuit.water, 6⟩ TowerSuit.sand (some 0) 5
  exact ⟨(h.1 rfl).1, (h.1 rfl).2.1, (h.1 rfl).2.2, (h.2.1 rfl).1, (h.2.1 rfl).2.1,
    (h.2.1 rfl).2.2, h.2.2.1 rfl, h.2.2.2⟩

/-- A capped tower rejects every card. -/
theorem capped_can_place_false (t : Tower) (c : Card)
    (h : t.is_capped = true) : t.can_place c = false := by
  unfold Tower.is_capped Tower.top_card at h
  unfold Tower.can_place
  rcases hlast : t.cards.getLast? with _ | top
  · rw [hlast] at h
    cases h
  · rw [hlast] at h
    dsimp only at h
    simp [h]

/-- A successful `can_place_card` check implies the target tower accepts the
card. -/
theorem can_place_card_eq_true_can_place (s : GameState) (p : Nat) (c : Card)
    (st : TowerSuit) (pl : PlayerState) (hpl : s.players[p]? = some pl)
    (h : can_place_card s p c st = true) :
    (pl.get_tower st).can_place c = true := by
  unfold can_place_card at h
  split at h
  · cases h
  · split at h
    · cases h
    · split at h
      · cases h
      · rw [hpl] at h
        exact h

/-- `state_tower` only looks at the players list. -/
theorem state_tower_set_preserves (s : GameState) (i : Nat) (pl x : PlayerState)
    (q : Nat) (st : TowerSuit) (hpl : s.players[i]? = some pl)
    (hx : x.towers = pl.towers) :
    state_tower { s with players := s.players.set i x } q st = state_tower s q st := by
  have hlen : i < s.players.length := by
    rcases Nat.lt_or_ge i s.players.length with hlt | hge
    · exact hlt
    · rw [List.getElem?_eq_none hge] at hpl
      cases hpl
  by_cases hq : i = q
  · subst hq
    simp [state_tower, List.getElem?_set_eq_of_lt x hlen, hpl, hx]
  · simp [state_tower, List.getElem?_set_ne hq]

/-- `start_new_round` does not change any player's towers. -/
theorem state_tower_start_new_round (s : GameState) (q : Nat) (st : TowerSuit) :
    state_tower (start_new_round s) q st = state_tower s q st := by
  simp only [start_new_round, deal_display_cards, state_tower]
  split <;> cases hq : s.players[q]? <;> simp [List.getElem?_map, hq]

/-- `discard_display_cards` does not change any player's towers. -/
theorem state_tower_discard (s : GameState) (q : Nat) (st : TowerSuit) :
    state_tower (discard_display_cards s) q st = state_tower s q st := rfl

/-- `refill_deck_from_discard` does not change any player's towers. -/
theorem state_tower_refill (s : GameState) (q : Nat) (st : TowerSuit) :
    state_tower (refill_deck_from_discard s).2 q st = state_tower s q st := by
  unfold refill_deck_from_discard
  split <;> rfl

/-- `deal_display_cards` does not change any player's towers. -/
theorem state_tower_deal (s : GameState) (n : Nat) (q : Nat) (st : TowerSuit) :
    state_tower (deal_display_cards s n).2 q st = state_tower s q st := rfl

/-- `end_building_phase` does not change any player's towers. -/
theorem state_tower_end_building (s : GameState) (q : Nat) (st : TowerSuit) :
    state_tower (end_building_phase s) q st = state_tower s q st := by
  unfold end_building_phase
  split
  · dsimp only
    split
    · next =>
        rw [show ∀ x : GameState, state_tower { x with phase := GamePhase.game_over } q st
            = state_tower x q st from fun x => rfl]
        exact state_tower_refill s q st
    · next =>
        rw [state_tower_start_new_round]
        exact state_tower_refill s q st
  · exact state_tower_start_new_round s q st

/-- `end_auction` with an explicit winner does not change any player's
towers. -/
theorem state_tower_end_auction_winner (s : GameState) (wi : Nat) (q : Nat)
    (st : TowerSuit) :
    state_tower (end_auction s (some wi)) q st = state_tower s q st := by
  simp only [end_auction]
  rw [show ∀ x : GameState, ∀ i : Nat,
      state_tower { x with phase := GamePhase.building, current_player_index := i } q st
      = state_tower x q st from fun x i => rfl]
  split
  · rw [state_tower_start_new_round]
    rfl
  · rfl

/-- `end_auction` does not change any player's towers, for every winner
argument. -/
theorem state_tower_end_auction (s : GameState) (w : Option Nat) (q : Nat)
    (st : TowerSuit) :
    state_tower (end_auction s w) q st = state_tower s q st := by
  rcases w with _ | wi
  · rcases hh : s.high_bidder_index with _ | hb
    · rcases hab : s.active_bidders with _ | ⟨a, _ | ⟨b, t⟩⟩
      · have he : end_auction s none = discard_display_cards s := by
          unfold end_auction
          simp only [hh, hab]
        rw [he]
        rfl
      · have he : end_auction s none = end_auction s (some (s.get_player_index a.id)) := by
          conv_lhs => unfold end_auction
          conv_rhs => unfold end_auction
          simp only [hh, hab]
        rw [he]
        exact state_tower_end_auction_winner s _ q st
      · have he : end_auction s none = discard_display_cards s := by
          unfold end_auction
          simp only [hh, hab]
        rw [he]
        rfl
    · have he : end_auction s none = end_auction s (some hb) := by
        conv_lhs => unfold end_auction
        conv_rhs => unfold end_auction
        simp only [hh]
      rw [he]
      exact state_tower_end_auction_winner s hb q st
  · exact state_tower_end_auction_winner s wi q st

/-- `submit_bid` does not change any player's towers. -/
theorem state_tower_submit_bid (s : GameState) (p : Nat) (a : Int) (q : Nat)
    (st : TowerSuit) :
    state_tower (submit_bid s p a).2 q st = state_tower s q st := by
  unfold submit_bid
  split
  · rfl
  · next =>
      rcases hpl : s.players[p]? with _ | pl
      · rfl
      · simp only [hpl]
        have h1 : state_tower { s with
            players := s.players.set p { pl with current_bid := some a },
            current_high_bid := a, high_bidder_index := some p } q st
            = state_tower s q st := by
          rw [show state_tower { s with
              players := s.players.set p { pl with current_bid := some a },
              current_high_bid := a, high_bidder_index := some p } q st
              = state_tower { s with
                players := s.players.set p { pl with current_bid := some a } } q st
              from rfl]
          exact state_tower_set_preserves s p pl _ q st hpl rfl
        split
        · exact (state_tower_end_auction_winner _ p q st).trans h1
        · exact h1

/-- `submit_pass` does not change any player's towers. -/
theorem state_tower_submit_pass (s : GameState) (p : Nat) (q : Nat)
    (st : TowerSuit) :
    state_tower (submit_pass s p).2 q st = state_tower s q st := by
  unfold submit_pass
  split
  · rfl
  · next =>
      rcases hpl : s.players[p]? with _ | pl
      · rfl
      · simp only [hpl]
        have h1 : state_tower { s with
            players := s.players.set p { pl with has_passed := true } } q st
            = state_tower s q st :=
          state_tower_set_preserves s p pl _ q st hpl rfl
        split
        · split
          · exact (state_tower_end_auction _ _ q st).trans h1
          · exact h1
        · exact h1

/-- `place_card` never removes a tower's cap: placement onto a capped tower
is rejected by the rules, and other towers are untouched. -/
theorem is_capped_preserved_place (s : GameState) (p : Nat) (c : Card)
    (st' : TowerSuit) (q : Nat) (st : TowerSuit)
    (h : (state_tower s q st).is_capped = true) :
    (state_tower (place_card s p c st').2 q st).is_capped = true := by
  unfold place_card
  split
  · exact h
  · next hcan =>
      rcases hpl : s.players[p]? with _ | pl
      · exact h
      · simp only [hpl]
        have hlen : p < s.players.length := by
          rcases Nat.lt_or_ge p s.players.length with hlt | hge
          · exact hlt
          · rw [List.getElem?_eq_none hge] at hpl
            cases hpl
        by_cases hq : p = q
        · subst hq
          by_cases hsuit : st = st'
          · subst hsuit
            exfalso
            have hcp := can_place_card_eq_true_can_place s p c st pl hpl (not_not.mp hcan)
            have hcap : (pl.get_tower st).is_capped = true := by
              have hst : state_tower s p st = pl.towers st := by
                simp [state_tower, hpl]
              rw [hst] at h
              exact h
            rw [capped_can_place_false _ c hcap] at hcp
            cases hcp
          · have hs1 : state_tower { s with
                players := s.players.set p { pl with towers := fun u => (if u = st' then Tower.add_card (pl.get_tower st') c else pl.towers u) },
                cards_to_process := s.cards_to_process.erase c } p st
                = state_tower s p st := by
              simp [state_tower, List.getElem?_set_eq_of_lt _ hlen, hpl, hsuit]
            split
            · rw [state_tower_end_building, hs1]
              exact h
            · rw [hs1]
              exact h
        · have hs1 : state_tower { s with
              players := s.players.set p { pl with towers := fun u => (if u = st' then Tower.add_card (pl.get_tower st') c else pl.towers u) },
              cards_to_process := s.cards_to_process.erase c } q st
              = state_tower s q st := by
            simp [state_tower, List.getElem?_set_ne hq]
          split
          · rw [state_tower_end_building, hs1]
            exact h
          · rw [hs1]
            exact h

/-- C9 amended: once a tower is capped by a Tower Top, `can_place` on it
returns false and it stays capped across every game operation except a
`tear_down_tower` of that same tower (the counterexample): placement attempts
on it are rejected, placements elsewhere leave it alone, and the bidding /
dealing / recycling operations never touch towers. -/
theorem capped_tower_stays_capped (s : GameState) (q : Nat) (st : TowerSuit)
    (c : Card) (p : Nat) (a : Int) (c' : Card) (st' : TowerSuit)
    (w : Option Nat) (n : Nat)
    (h : (state_tower s q st).is_capped = true) :
    (state_tower s q st).can_place c = false ∧
    (state_tower (place_card s p c' st').2 q st).is_capped = true ∧
    (state_tower (submit_bid s p a).2 q st).is_capped = true ∧
    (state_tower (submit_pass s p).2 q st).is_capped = true ∧
    (state_tower (end_auction s w) q st).is_capped = true ∧
    (state_tower (start_new_round s) q st).is_capped = true ∧
    (state_tower (deal_display_cards s n).2 q st).is_capped = true ∧
    (state_tower (refill_deck_from_discard s).2 q st).is_capped = true :=
  ⟨capped_can_place_false _ c h,
    is_capped_preserved_place s p c' st' q st h,
    by rw [state_tower_submit_bid]; exact h,
    by rw [state_tower_submit_pass]; exact h,
    by rw [state_tower_end_auction]; exact h,
    by rw [state_tower_start_new_round]; exact h,
    by rw [state_tower_deal]; exact h,
    by rw [state_tower_refill]; exact h⟩

/-- Witness for `capped_tower_stays_capped` at the concrete capped state. -/
theorem capped_tower_stays_capped_witness :
    (state_tower capped_state 0 TowerSuit.sand).can_place ⟨9, TowerSuit.sand, 4⟩ = false ∧
    (state_tower (place_card capped_state 0 ⟨9, TowerSuit.sand, 4⟩ TowerSuit.sand).2 0
        TowerSuit.sand).is_capped = true ∧
    (state_tower (submit_bid capped_state 0 3).2 0 TowerSuit.sand).is_capped = true ∧
    (state_tower (submit_pass capped_state 0).2 0 TowerSuit.sand).is_capped = true ∧
    (state_tower (end_auction capped_state (some 0)) 0 TowerSuit.sand).is_capped = true ∧
    (state_tower (start_new_round capped_state) 0 TowerSuit.sand).is_capped = true ∧
    (state_tower (deal_display_cards capped_state 5).2 0 TowerSuit.sand).is_capped = true ∧
    (state_tower (refill_deck_from_discard capped_state).2 0 TowerSuit.sand).is_capped = true :=
  capped_tower_stays_capped capped_state 0 TowerSuit.sand ⟨9, TowerSuit.sand, 4⟩ 0 3
    ⟨9, TowerSuit.sand, 4⟩ TowerSuit.sand (some 0) 5 (by decide)
